import Mathlib

/-!
Verification of the multi-source market-data fetch layer
(`fetch_yahoo_or_nse` in `utils_fetch.py`) of the trade-bot repository.

The Python function is shallowly embedded as a pure Lean function.
Python strings are modelled as `List Char` (a Python `str` is a sequence of
code points); a pandas `DataFrame` of OHLCV rows is modelled as a list of
`Bar`s (the code only ever tests emptiness, so only the row list matters);
the upstream providers (`yf.Ticker(...).history(...)` and `yf.download`)
are modelled by an oracle `env : Nat → Except String DataFrame` giving the
outcome of the n-th provider call, in call order: `Except.ok df` models a
call that returned a frame, `Except.error e` a call that raised.

Besides its result (`Option DataFrame`, `none` modelling Python `None`),
the embedded function produces a trace of observable events — every
provider call with its outcome, and every `time.sleep` with its duration —
so that the retry/backoff/fallback policy can be stated and proved.
-/

/-- A Python string, as a sequence of code points. -/
abbrev Str := List Char

/-- Python `s.endswith(t)`: `t` is a suffix of `s`. -/
def strEndsWith (s t : Str) : Bool := t.isSuffixOf s

/-- Python `s.startswith(t)`: `t` is a prefix of `s`. -/
def strStartsWith (s t : Str) : Bool := t.isPrefixOf s

/-- The NSE exchange suffix `".NS"` (utils_fetch.py lines 11-12). -/
def nsSuffix : Str := ".NS".data

/-- The index marker `"^"` (utils_fetch.py line 11). -/
def caretStr : Str := "^".data

/-- utils_fetch.py lines 11-12:
`if not (symbol.endswith(".NS") or symbol.startswith("^")): symbol += ".NS"`. -/
def normalize_symbol (symbol : Str) : Str :=
  if strEndsWith symbol nsSuffix || strStartsWith symbol caretStr then symbol
  else symbol ++ nsSuffix

/-- One OHLCV row of a DataFrame. The fetch code never reads the fields
(it only tests `df.empty`), so their values are unconstrained. -/
structure Bar where
  ts : Int
  opn : Int
  high : Int
  low : Int
  close : Int
  volume : Int
deriving DecidableEq, Repr

/-- A pandas DataFrame of bars, as its list of rows; `df.empty` is `df = []`. -/
abbrev DataFrame := List Bar

instance : DecidableEq (Except String DataFrame) := fun a b =>
  match a, b with
  | Except.ok x, Except.ok y =>
    if h : x = y then isTrue (by rw [h]) else isFalse (by intro hc; cases hc; exact h rfl)
  | Except.error x, Except.error y =>
    if h : x = y then isTrue (by rw [h]) else isFalse (by intro hc; cases hc; exact h rfl)
  | Except.ok _, Except.error _ => isFalse (by intro hc; cases hc)
  | Except.error _, Except.ok _ => isFalse (by intro hc; cases hc)

/-- A provider call made by `fetch_yahoo_or_nse`, tagged by which strategy
issued it: Strategy 1 (`ticker.history` with the caller's period/interval,
lines 17-49), Strategy 2 (`ticker.history` with a fallback config,
lines 58-71), or Strategy 3 (`yf.download`, lines 74-83). -/
inductive FetchCall where
  | primaryHistory (symbol period interval : Str)
  | fallbackHistory (symbol period interval : Str)
  | download (symbol period interval : Str)
deriving DecidableEq, Repr

/-- An observable event of one run: a provider call with its outcome,
or a `time.sleep` with its duration. -/
inductive Event where
  | call (c : FetchCall) (r : Except String DataFrame)
  | sleep (seconds : Nat)
deriving DecidableEq, Repr

/-- The outcome oracle: result of the n-th provider call of the run. -/
abbrev Env := Nat → Except String DataFrame

/-- How each strategy consumes one provider-call outcome
(utils_fetch.py lines 36-45, 62-69, 76-83): a non-empty frame is the
value returned early (`some df`); an empty frame (`df.empty`) or a raised
exception (caught by the bare `except Exception`) falls through (`none`). -/
def classify (r : Except String DataFrame) : Option DataFrame :=
  match r with
  | Except.ok df => if df.isEmpty then none else some df
  | Except.error _ => none

/-- Strategy 1 (utils_fetch.py lines 17-49): `for attempt in
range(1, max_retries + 1)`, each iteration one `ticker.history` call in a
`try`; a non-empty frame is returned at once; an empty frame or an
exception falls through, and `if attempt < max_retries: time.sleep(pause)`.
Here the first argument of the recursion is the number of attempts still
to make (so `attempt < max_retries` is `remaining ≠ 0` after the current
one) and `k` is the index of the next provider call. Returns the result,
the next call index, and the event trace. -/
def primary_attempts (env : Env) (sym period interval : Str) (pause : Nat) :
    Nat → Nat → Option DataFrame × Nat × List Event
  | 0, k => (none, k, [])
  | remaining + 1, k =>
    let r := env k
    let ev := Event.call (FetchCall.primaryHistory sym period interval) r
    match classify r with
    | some df => (some df, k + 1, [ev])
    | none =>
      if remaining = 0 then (none, k + 1, [ev])
      else
        let rest := primary_attempts env sym period interval pause remaining (k + 1)
        (rest.1, rest.2.1, ev :: Event.sleep pause :: rest.2.2)

/-- utils_fetch.py lines 52-56: the hardcoded fallback (period, interval)
configurations of Strategy 2. -/
def fallback_configs : List (Str × Str) :=
  [("5d".data, "1d".data), ("1mo".data, "1d".data), ("3mo".data, "1wk".data)]

/-- Strategy 2 (utils_fetch.py lines 58-71): `for config in
fallback_configs`, each iteration one `ticker.history(**config)` call in a
`try`; a non-empty frame is returned at once (before any sleep); an empty
frame or an exception falls through to the unconditional `time.sleep(2)`
at the end of the loop body. -/
def fallback_attempts (env : Env) (sym : Str) :
    List (Str × Str) → Nat → Option DataFrame × Nat × List Event
  | [], k => (none, k, [])
  | (period, interval) :: rest, k =>
    let r := env k
    let ev := Event.call (FetchCall.fallbackHistory sym period interval) r
    match classify r with
    | some df => (some df, k + 1, [ev])
    | none =>
      let restRes := fallback_attempts env sym rest (k + 1)
      (restRes.1, restRes.2.1, ev :: Event.sleep 2 :: restRes.2.2)

/-- Strategy 3 (utils_fetch.py lines 74-83): one `yf.download(symbol,
period="1mo", interval="1d")` call in a `try`; a non-empty frame is
returned, an empty frame or an exception falls through. -/
def download_attempt (env : Env) (sym : Str) (k : Nat) :
    Option DataFrame × List Event :=
  let r := env k
  let ev := Event.call (FetchCall.download sym ("1mo".data) ("1d".data)) r
  (classify r, [ev])

/-- utils_fetch.py lines 7-86, `fetch_yahoo_or_nse(symbol, period="1mo",
interval="1d", max_retries=5, pause=3)`: normalize the symbol once
(lines 11-12), run Strategy 1, then Strategy 2, then Strategy 3, and
return `None` (line 86) if all fail. Returns the Python result together
with the event trace of the run. -/
def fetch_yahoo_or_nse (env : Env) (symbol period interval : Str)
    (max_retries pause : Nat) : Option DataFrame × List Event :=
  let sym := normalize_symbol symbol
  let p := primary_attempts env sym period interval pause max_retries 0
  match p.1 with
  | some df => (some df, p.2.2)
  | none =>
    let f := fallback_attempts env sym fallback_configs p.2.1
    match f.1 with
    | some df => (some df, p.2.2 ++ f.2.2)
    | none =>
      let d := download_attempt env sym f.2.1
      match d.1 with
      | some df => (some df, p.2.2 ++ f.2.2 ++ d.2)
      | none => (none, p.2.2 ++ f.2.2 ++ d.2)

/-- A provider-call outcome that does not produce data: an empty frame
(`[EMPTY]` branch, line 42) or a raised exception (`except` branches). -/
def failed : Except String DataFrame → Bool
  | Except.ok df => df.isEmpty
  | Except.error _ => true

/-- One `try: df = <provider call>; if not df.empty: return df / except
Exception: pass` block, in the exception monad: the provider call may
raise (`Except.error`), the bare `except Exception` handler catches
everything and falls through (modelled by `Except.tryCatch` with a `pure`
handler). `some df` models the early `return df`; `none` models falling
through (empty frame or caught exception) — in utils_fetch.py these are
the paths that reach the sleep / next strategy. -/
def try_provider_call (r : Except String DataFrame) :
    Except String (Option DataFrame) :=
  Except.tryCatch
    (do
      let df ← r
      if df.isEmpty then pure none else pure (some df))
    (fun _ => pure none)

/-- Strategy 1 in the exception monad (same control flow as
`primary_attempts`, with the raising/catching explicit). -/
def primary_attempts_exc (env : Env) :
    Nat → Nat → Except String (Option DataFrame)
  | 0, _ => Except.ok none
  | remaining + 1, k => do
    let got ← try_provider_call (env k)
    match got with
    | some df => pure (some df)
    | none => primary_attempts_exc env remaining (k + 1)

/-- Strategy 2 in the exception monad. -/
def fallback_attempts_exc (env : Env) :
    List (Str × Str) → Nat → Except String (Option DataFrame)
  | [], _ => Except.ok none
  | _ :: rest, k => do
    let got ← try_provider_call (env k)
    match got with
    | some df => pure (some df)
    | none => fallback_attempts_exc env rest (k + 1)

/-- The whole of `fetch_yahoo_or_nse` in the exception monad: the value computed by
the same control flow, with every provider call allowed to raise and
every `try/except Exception` block explicit. An uncaught adapter
exception would surface here as an `Except.error` result. -/
def fetch_yahoo_or_nse_exc (env : Env) (max_retries : Nat) :
    Except String (Option DataFrame) := do
  let p ← primary_attempts_exc env max_retries 0
  match p with
  | some df => pure (some df)
  | none => do
    let f ← fallback_attempts_exc env fallback_configs max_retries
    match f with
    | some df => pure (some df)
    | none => do
      let d ← try_provider_call (env (max_retries + fallback_configs.length))
      match d with
      | some df => pure (some df)
      | none => pure none

/-- Is the event a Strategy-1 provider call? -/
def isPrimaryCall : Event → Bool
  | Event.call (FetchCall.primaryHistory _ _ _) _ => true
  | _ => false

/-- Is the event a fallback provider call (Strategy 2 or Strategy 3)? -/
def isFallbackCall : Event → Bool
  | Event.call (FetchCall.fallbackHistory _ _ _) _ => true
  | Event.call (FetchCall.download _ _ _) _ => true
  | _ => false

/-- Is the event a sleep? -/
def isSleepEvent : Event → Bool
  | Event.sleep _ => true
  | _ => false

/-- Number of Strategy-1 (primary) provider calls in a trace. -/
def countPrimaryCalls (t : List Event) : Nat := t.countP isPrimaryCall

/-- Number of fallback provider calls (Strategies 2 and 3) in a trace. -/
def countFallbackCalls (t : List Event) : Nat := t.countP isFallbackCall

/-- Number of sleeps in a trace. -/
def countSleeps (t : List Event) : Nat := t.countP isSleepEvent

/-- The descriptors of the fallback provider calls of a trace, in order. -/
def fallbackCallsOf (t : List Event) : List FetchCall :=
  t.filterMap fun ev =>
    match ev with
    | Event.call c r => if isFallbackCall (Event.call c r) then some c else none
    | Event.sleep _ => none

/-- The full ordered list of fallback call descriptors the code can issue
for a (normalized) symbol: the three Strategy-2 configs, then the
Strategy-3 download. -/
def fallbackCallChain (sym : Str) : List FetchCall :=
  (fallback_configs.map fun c => FetchCall.fallbackHistory sym c.1 c.2)
    ++ [FetchCall.download sym ("1mo".data) ("1d".data)]

/-- The symbol a call descriptor was issued with. -/
def callSymbol : FetchCall → Str
  | FetchCall.primaryHistory s _ _ => s
  | FetchCall.fallbackHistory s _ _ => s
  | FetchCall.download s _ _ => s

/-- Does the event use symbol `sym` (sleeps vacuously do)? -/
def eventUsesSymbol (sym : Str) : Event → Bool
  | Event.call c _ => decide (callSymbol c = sym)
  | Event.sleep _ => true

/-- The exact event trace of Strategy 1 when every one of `fuel`
remaining attempts fails (empty or raises): the calls with their
outcomes, one `sleep pause` between consecutive attempts and none after
the last. -/
def all_fail_trace (env : Env) (sym period interval : Str) (pause : Nat) :
    Nat → Nat → List Event
  | 0, _ => []
  | 1, k => [Event.call (FetchCall.primaryHistory sym period interval) (env k)]
  | remaining + 2, k =>
    Event.call (FetchCall.primaryHistory sym period interval) (env k)
      :: Event.sleep pause
      :: all_fail_trace env sym period interval pause (remaining + 1) (k + 1)

/-- Timestamps of a frame, in row order. -/
def timestampsOf (df : DataFrame) : List Int := df.map Bar.ts

/-- Is the list strictly ascending? -/
def strictAsc : List Int → Bool
  | [] => true
  | [_] => true
  | a :: b :: t => decide (a < b) && strictAsc (b :: t)

example :
    (fetch_yahoo_or_nse (fun _ => Except.ok []) ("X".data) ("1y".data) ("1h".data) 2 3).1
      = none := by decide

example :
    (fetch_yahoo_or_nse (fun _ => Except.ok [⟨1, 2, 3, 4, 5, 6⟩]) ("X".data)
      ("1y".data) ("1h".data) 2 3)
      = (some [⟨1, 2, 3, 4, 5, 6⟩],
         [Event.call (FetchCall.primaryHistory ("X.NS".data) ("1y".data) ("1h".data))
            (Except.ok [⟨1, 2, 3, 4, 5, 6⟩])]) := by decide

theorem classify_eq_none_of_failed (r : Except String DataFrame)
    (h : failed r = true) : classify r = none := by
  cases r with
  | ok df =>
    simp only [failed] at h
    simp [classify, h]
  | error e => rfl

theorem classify_eq_some_iff (r : Except String DataFrame) (df : DataFrame)
    (h : classify r = some df) : df ≠ [] ∧ r = Except.ok df := by
  cases r with
  | ok d =>
    by_cases hd : d.isEmpty
    · simp [classify, hd] at h
    · simp only [classify, hd, if_false] at h
      cases h
      exact ⟨by simpa using hd, rfl⟩
  | error e => simp [classify] at h

theorem primary_attempts_some (env : Env) (sym period interval : Str)
    (pause : Nat) :
    ∀ n k df, (primary_attempts env sym period interval pause n k).1 = some df →
      df ≠ [] ∧ ∃ j, env j = Except.ok df := by
  intro n
  induction n with
  | zero => intro k df h; simp [primary_attempts] at h
  | succ m ih =>
    intro k df h
    simp only [primary_attempts] at h
    split at h
    · next d hc =>
      simp only at h
      cases h
      obtain ⟨hne, hok⟩ := classify_eq_some_iff _ _ hc
      exact ⟨hne, k, hok⟩
    · next hc =>
      split at h
      · simp at h
      · exact ih (k + 1) df h

theorem fallback_attempts_some (env : Env) (sym : Str) :
    ∀ cfgs k df, (fallback_attempts env sym cfgs k).1 = some df →
      df ≠ [] ∧ ∃ j, env j = Except.ok df := by
  intro cfgs
  induction cfgs with
  | nil => intro k df h; simp [fallback_attempts] at h
  | cons c rest ih =>
    intro k df h
    obtain ⟨period, interval⟩ := c
    simp only [fallback_attempts] at h
    split at h
    · next d hc =>
      simp only at h
      cases h
      obtain ⟨hne, hok⟩ := classify_eq_some_iff _ _ hc
      exact ⟨hne, k, hok⟩
    · next hc =>
      exact ih (k + 1) df h

theorem download_attempt_some (env : Env) (sym : Str) (k : Nat)
    (df : DataFrame) (h : (download_attempt env sym k).1 = some df) :
    df ≠ [] ∧ ∃ j, env j = Except.ok df := by
  simp only [download_attempt] at h
  obtain ⟨hne, hok⟩ := classify_eq_some_iff _ _ h
  exact ⟨hne, k, hok⟩

theorem fetch_some_sound (env : Env) (symbol period interval : Str)
    (max_retries pause : Nat) (df : DataFrame)
    (h : (fetch_yahoo_or_nse env symbol period interval max_retries pause).1
      = some df) :
    df ≠ [] ∧ ∃ j, env j = Except.ok df := by
  simp only [fetch_yahoo_or_nse] at h
  split at h
  · next d hp =>
    simp only at h
    cases h
    exact primary_attempts_some env _ period interval pause max_retries 0 df hp
  · next hp =>
    split at h
    · next d hf =>
      simp only at h
      cases h
      exact fallback_attempts_some env _ fallback_configs _ df hf
    · next hf =>
      split at h
      · next d hd =>
        simp only at h
        cases h
        exact download_attempt_some env _ _ df hd
      · next hd =>
        simp only at h
        cases h

/-- C1: for every input and every provider behaviour, `fetch_yahoo_or_nse`
returns either a non-empty frame or the explicit absence signal `None`
(modelled `none`); it never returns an empty-but-present frame. -/
theorem fetch_returns_nonempty_or_none (env : Env)
    (symbol period interval : Str) (max_retries pause : Nat) :
    (fetch_yahoo_or_nse env symbol period interval max_retries pause).1 = none
      ∨ ∃ df, (fetch_yahoo_or_nse env symbol period interval max_retries pause).1
          = some df ∧ df ≠ [] := by
  cases hr : (fetch_yahoo_or_nse env symbol period interval max_retries pause).1 with
  | none => exact Or.inl rfl
  | some df =>
    exact Or.inr ⟨df, rfl,
      (fetch_some_sound env symbol period interval max_retries pause df hr).1⟩

theorem primary_attempts_all_fail (env : Env) (sym period interval : Str)
    (pause : Nat) :
    ∀ n k, (∀ j, j < n → failed (env (k + j)) = true) →
      primary_attempts env sym period interval pause n k
        = (none, k + n, all_fail_trace env sym period interval pause n k) := by
  intro n
  induction n with
  | zero => intro k _; simp [primary_attempts, all_fail_trace]
  | succ m ih =>
    intro k h
    have h0 : failed (env k) = true := by simpa using h 0 (Nat.succ_pos m)
    have hc : classify (env k) = none := classify_eq_none_of_failed _ h0
    simp only [primary_attempts, hc]
    cases m with
    | zero => simp [all_fail_trace]
    | succ m' =>
      have hrec := ih (k + 1) (fun j hj => by
        have := h (j + 1) (by omega)
        simpa [Nat.add_assoc, Nat.add_comm 1 j] using this)
      simp only [Nat.succ_ne_zero, if_false, hrec]
      have hk : k + 1 + (m' + 1) = k + (m' + 1 + 1) := by omega
      simp [all_fail_trace, hk]

theorem all_fail_trace_countPrimary (env : Env) (sym period interval : Str)
    (pause : Nat) :
    ∀ n k, countPrimaryCalls (all_fail_trace env sym period interval pause n k)
      = n := by
  intro n
  induction n with
  | zero => intro k; simp [all_fail_trace, countPrimaryCalls]
  | succ m ih =>
    intro k
    cases m with
    | zero => simp [all_fail_trace, countPrimaryCalls, isPrimaryCall, List.countP_cons]
    | succ m' =>
      have := ih (k + 1)
      simp only [all_fail_trace, countPrimaryCalls, List.countP_cons] at this ⊢
      simp [isPrimaryCall, isSleepEvent, this]

theorem all_fail_trace_countFallback (env : Env) (sym period interval : Str)
    (pause : Nat) :
    ∀ n k, countFallbackCalls (all_fail_trace env sym period interval pause n k)
      = 0 := by
  intro n
  induction n with
  | zero => intro k; simp [all_fail_trace, countFallbackCalls]
  | succ m ih =>
    intro k
    cases m with
    | zero => simp [all_fail_trace, countFallbackCalls, isFallbackCall, List.countP_cons]
    | succ m' =>
      have := ih (k + 1)
      simp only [all_fail_trace, countFallbackCalls, List.countP_cons] at this ⊢
      simp [isFallbackCall, this]

theorem all_fail_trace_countSleeps (env : Env) (sym period interval : Str)
    (pause : Nat) :
    ∀ n k, countSleeps (all_fail_trace env sym period interval pause n k)
      = n - 1 := by
  intro n
  induction n with
  | zero => intro k; simp [all_fail_trace, countSleeps]
  | succ m ih =>
    intro k
    cases m with
    | zero => simp [all_fail_trace, countSleeps, isSleepEvent, List.countP_cons]
    | succ m' =>
      have := ih (k + 1)
      simp only [all_fail_trace, countSleeps, List.countP_cons] at this ⊢
      simp [isSleepEvent, this]

/-- C2: when every Strategy-1 call fails (empty frame or exception),
`fetch_yahoo_or_nse` makes exactly `max_retries` primary attempts, with
one `sleep pause` between consecutive primary attempts and none after the
last (the trace of the primary phase is exactly `all_fail_trace`, which
interleaves the `max_retries` calls with `max_retries - 1` sleeps of
`pause`), and only then makes a fallback attempt; if that first fallback
call yields a non-empty frame `df`, the function returns `df`. -/
theorem fetch_retries_then_falls_back (env : Env)
    (symbol period interval : Str) (max_retries pause : Nat) (df : DataFrame)
    (hfail : ∀ j, j < max_retries → failed (env j) = true)
    (hok : env max_retries = Except.ok df) (hne : df ≠ []) :
    fetch_yahoo_or_nse env symbol period interval max_retries pause
      = (some df,
         all_fail_trace env (normalize_symbol symbol) period interval pause
             max_retries 0
           ++ [Event.call
                (FetchCall.fallbackHistory (normalize_symbol symbol)
                  ("5d".data) ("1d".data))
                (Except.ok df)])
      ∧ countPrimaryCalls
          (fetch_yahoo_or_nse env symbol period interval max_retries pause).2
          = max_retries
      ∧ countFallbackCalls
          (fetch_yahoo_or_nse env symbol period interval max_retries pause).2
          = 1
      ∧ countSleeps
          (fetch_yahoo_or_nse env symbol period interval max_retries pause).2
          = max_retries - 1 := by
  have hp := primary_attempts_all_fail env (normalize_symbol symbol) period
    interval pause max_retries 0 (fun j hj => by simpa using hfail j hj)
  have hempty : df.isEmpty = false := by
    cases df with
    | nil => exact absurd rfl hne
    | cons a l => rfl
  have hclass : classify (env max_retries) = some df := by
    simp [classify, hok, hempty]
  have hmain :
      fetch_yahoo_or_nse env symbol period interval max_retries pause
        = (some df,
           all_fail_trace env (normalize_symbol symbol) period interval pause
               max_retries 0
             ++ [Event.call
                  (FetchCall.fallbackHistory (normalize_symbol symbol)
                    ("5d".data) ("1d".data))
                  (Except.ok df)]) := by
    simp only [fetch_yahoo_or_nse, hp]
    simp only [Nat.zero_add]
    simp only [fallback_configs, fallback_attempts, hclass]
    simp [hok]
  refine ⟨hmain, ?_, ?_, ?_⟩
  · rw [hmain]
    simp only [countPrimaryCalls, List.countP_append]
    have h1 := all_fail_trace_countPrimary env (normalize_symbol symbol)
      period interval pause max_retries 0
    simp only [countPrimaryCalls] at h1
    simp [h1, isPrimaryCall]
  · rw [hmain]
    simp only [countFallbackCalls, List.countP_append]
    have h1 := all_fail_trace_countFallback env (normalize_symbol symbol)
      period interval pause max_retries 0
    simp only [countFallbackCalls] at h1
    simp [h1, isFallbackCall]
  · rw [hmain]
    simp only [countSleeps, List.countP_append]
    have h1 := all_fail_trace_countSleeps env (normalize_symbol symbol)
      period interval pause max_retries 0
    simp only [countSleeps] at h1
    simp [h1, isSleepEvent]

/-- A sample bar for concrete runs. -/
def barC : Bar := ⟨1, 10, 12, 9, 11, 100⟩

/-- A second sample bar, with an earlier timestamp than `barC`. -/
def barEarlier : Bar := ⟨0, 10, 12, 9, 11, 100⟩

/-- Concrete oracle: the first two provider calls return an empty frame,
every later call returns the one-bar frame `[barC]`. -/
def envEmptyTwice : Env := fun j =>
  if j < 2 then Except.ok [] else Except.ok [barC]

theorem fetch_retries_then_falls_back_witness :
    (∀ j, j < 2 → failed (envEmptyTwice j) = true)
      ∧ fetch_yahoo_or_nse envEmptyTwice ("RELIANCE".data) ("1y".data)
          ("1h".data) 2 3
        = (some [barC],
           all_fail_trace envEmptyTwice (normalize_symbol ("RELIANCE".data))
               ("1y".data) ("1h".data) 3 2 0
             ++ [Event.call
                  (FetchCall.fallbackHistory (normalize_symbol ("RELIANCE".data))
                    ("5d".data) ("1d".data))
                  (Except.ok [barC])]) :=
  ⟨by decide,
   (fetch_retries_then_falls_back envEmptyTwice ("RELIANCE".data) ("1y".data)
     ("1h".data) 2 3 [barC] (by decide) (by decide) (by decide)).1⟩

/-- Oracle on which every provider call returns an empty frame. -/
def envAlwaysEmpty : Env := fun _ => Except.ok []

/-- C3 counterexample: with one primary attempt and every call returning
an empty frame, the run makes four fallback provider calls (the three
Strategy-2 configs and the Strategy-3 download), not exactly one, before
reporting absence. -/
theorem fallback_attempted_once_counterexample :
    countFallbackCalls
        (fetch_yahoo_or_nse envAlwaysEmpty ("RELIANCE".data) ("1y".data)
          ("1h".data) 1 3).2 = 4
      ∧ countFallbackCalls
          (fetch_yahoo_or_nse envAlwaysEmpty ("RELIANCE".data) ("1y".data)
            ("1h".data) 1 3).2 ≠ 1
      ∧ (fetch_yahoo_or_nse envAlwaysEmpty ("RELIANCE".data) ("1y".data)
          ("1h".data) 1 3).1 = none := by
  refine ⟨by decide, by decide, by decide⟩

theorem primary_attempts_no_fallback_calls (env : Env)
    (sym period interval : Str) (pause : Nat) :
    ∀ n k, fallbackCallsOf
        ((primary_attempts env sym period interval pause n k).2.2) = [] := by
  intro n
  induction n with
  | zero => intro k; simp [primary_attempts, fallbackCallsOf]
  | succ m ih =>
    intro k
    simp only [primary_attempts]
    cases hc : classify (env k) with
    | some df => simp [fallbackCallsOf, isFallbackCall]
    | none =>
      by_cases hm : m = 0
      · simp [hm, fallbackCallsOf, isFallbackCall]
      · have := ih (k + 1)
        simp only [hm, if_false]
        simp [fallbackCallsOf, isFallbackCall, this]
        simpa [fallbackCallsOf] using this

theorem fallback_attempts_calls_take (env : Env) (sym : Str) :
    ∀ cfgs k, ∃ n, n ≤ cfgs.length ∧
      fallbackCallsOf ((fallback_attempts env sym cfgs k).2.2)
        = (cfgs.map fun c => FetchCall.fallbackHistory sym c.1 c.2).take n ∧
      ((fallback_attempts env sym cfgs k).1 = none → n = cfgs.length) := by
  intro cfgs
  induction cfgs with
  | nil => intro k; exact ⟨0, by simp, by simp [fallback_attempts, fallbackCallsOf], by simp⟩
  | cons c rest ih =>
    intro k
    obtain ⟨period, interval⟩ := c
    cases hc : classify (env k) with
    | some df =>
      refine ⟨1, by simp, ?_, ?_⟩
      · simp [fallback_attempts, hc, fallbackCallsOf, isFallbackCall]
      · simp [fallback_attempts, hc]
    | none =>
      obtain ⟨n, hn, htake, hnone⟩ := ih (k + 1)
      refine ⟨n + 1, by simpa using hn, ?_, ?_⟩
      · simp only [fallback_attempts, hc]
        simp [fallbackCallsOf, isFallbackCall] at htake ⊢
        simpa [fallbackCallsOf] using htake
      · intro hres
        simp only [fallback_attempts, hc] at hres
        have := hnone hres
        simp [this]

theorem download_attempt_calls (env : Env) (sym : Str) (k : Nat) :
    fallbackCallsOf ((download_attempt env sym k).2)
      = [FetchCall.download sym ("1mo".data) ("1d".data)] := by
  simp [download_attempt, fallbackCallsOf, isFallbackCall]

/-- C3 (amended): retries apply only to the primary adapter; once the
primary attempts are exhausted, the fallback calls follow the fixed chain
`fallbackCallChain` — the three Strategy-2 configs then the Strategy-3
download — in order, each issued at most once (the fallback call sequence
of every run is an initial segment of that four-element chain), before
the orchestrator reports absence. -/
theorem fallback_calls_initial_segment_of_chain (env : Env)
    (symbol period interval : Str) (max_retries pause : Nat) :
    ∃ n, n ≤ 4 ∧
      fallbackCallsOf
          (fetch_yahoo_or_nse env symbol period interval max_retries pause).2
        = (fallbackCallChain (normalize_symbol symbol)).take n := by
  have hprim := primary_attempts_no_fallback_calls env
    (normalize_symbol symbol) period interval pause max_retries 0
  simp only [fetch_yahoo_or_nse]
  split
  · next df hp =>
    exact ⟨0, by omega, by simp [hprim]⟩
  · next hp =>
    obtain ⟨n, hn, htake, hnone⟩ := fallback_attempts_calls_take env
      (normalize_symbol symbol) fallback_configs
      (primary_attempts env (normalize_symbol symbol) period interval pause
        max_retries 0).2.1
    split
    · next df hf =>
      refine ⟨n, ?_, ?_⟩
      · simp only [fallback_configs] at hn
        simpa using Nat.le_trans hn (by norm_num)
      · simp only [fallbackCallsOf, List.filterMap_append]
        simp only [fallbackCallsOf] at hprim htake
        rw [hprim, htake]
        simp only [fallbackCallChain]
        rw [List.take_append_of_le_length (by simpa using hn)]
        simp
    · next hf =>
      have hn3 : n = fallback_configs.length := hnone hf
      have hdl := download_attempt_calls env (normalize_symbol symbol)
        (fallback_attempts env (normalize_symbol symbol) fallback_configs
          (primary_attempts env (normalize_symbol symbol) period interval
            pause max_retries 0).2.1).2.1
      refine ⟨4, le_refl 4, ?_⟩
      split
      all_goals
        simp only [fallbackCallsOf, List.filterMap_append]
        simp only [fallbackCallsOf] at hprim htake hdl
        rw [hprim, htake, hdl]
        simp [hn3, fallbackCallChain, fallback_configs, List.take]

/-- A two-bar frame whose timestamps are out of order (later bar first). -/
def dfUnsorted : DataFrame := [barC, barEarlier]

/-- Oracle whose every provider call returns the unsorted frame. -/
def envUnsorted : Env := fun _ => Except.ok dfUnsorted

/-- C4 counterexample: when the upstream provider returns a frame whose
timestamps are out of order, `fetch_yahoo_or_nse` returns that frame as
is — its successful result is not sorted strictly ascending, because the
function performs no sorting or de-duplication. -/
theorem fetch_sorted_counterexample :
    (fetch_yahoo_or_nse envUnsorted ("RELIANCE".data) ("1mo".data)
        ("1d".data) 5 3).1 = some dfUnsorted
      ∧ strictAsc (timestampsOf dfUnsorted) = false := by
  refine ⟨by decide, by decide⟩

/-- C4 (amended): every successful result of `fetch_yahoo_or_nse` is a
non-empty frame returned verbatim from some provider call — the function
applies no sorting and no de-duplication, so the bar order and any
duplicate timestamps are exactly those of the upstream response. -/
theorem fetch_returns_provider_frame_verbatim (env : Env)
    (symbol period interval : Str) (max_retries pause : Nat) (df : DataFrame)
    (h : (fetch_yahoo_or_nse env symbol period interval max_retries pause).1
      = some df) :
    df ≠ [] ∧ ∃ j, env j = Except.ok df :=
  fetch_some_sound env symbol period interval max_retries pause df h

theorem fetch_returns_provider_frame_verbatim_witness :
    (fetch_yahoo_or_nse envUnsorted ("TCS".data) ("1mo".data) ("1d".data)
        5 3).1 = some dfUnsorted
      ∧ (dfUnsorted ≠ [] ∧ ∃ j, envUnsorted j = Except.ok dfUnsorted) :=
  ⟨by decide,
   fetch_returns_provider_frame_verbatim envUnsorted ("TCS".data)
     ("1mo".data) ("1d".data) 5 3 dfUnsorted (by decide)⟩

theorem try_provider_call_eq (r : Except String DataFrame) :
    try_provider_call r = Except.ok (classify r) := by
  cases r with
  | ok df =>
    by_cases hd : df.isEmpty
    · simp [try_provider_call, Except.tryCatch, classify, hd, Bind.bind,
        Except.bind, Except.pure, pure]
    · simp [try_provider_call, Except.tryCatch, classify, hd, Bind.bind,
        Except.bind, Except.pure, pure]
  | error e =>
    simp [try_provider_call, Except.tryCatch, classify, Bind.bind,
      Except.bind, Except.pure, pure]

theorem primary_attempts_exc_eq (env : Env) (sym period interval : Str)
    (pause : Nat) :
    ∀ n k, primary_attempts_exc env n k
      = Except.ok (primary_attempts env sym period interval pause n k).1 := by
  intro n
  induction n with
  | zero => intro k; simp [primary_attempts_exc, primary_attempts]
  | succ m ih =>
    intro k
    simp only [primary_attempts_exc, try_provider_call_eq, primary_attempts]
    cases hc : classify (env k) with
    | some df => simp [Bind.bind, Except.bind, Except.pure, pure]
    | none =>
      by_cases hm : m = 0
      · subst hm
        simp [Bind.bind, Except.bind, ih, primary_attempts_exc,
          primary_attempts]
      · simp [Bind.bind, Except.bind, ih (k + 1), hm]

theorem fallback_attempts_exc_eq (env : Env) (sym : Str) :
    ∀ cfgs k, fallback_attempts_exc env cfgs k
      = Except.ok (fallback_attempts env sym cfgs k).1 := by
  intro cfgs
  induction cfgs with
  | nil => intro k; simp [fallback_attempts_exc, fallback_attempts]
  | cons c rest ih =>
    intro k
    obtain ⟨period, interval⟩ := c
    simp only [fallback_attempts_exc, try_provider_call_eq, fallback_attempts]
    cases hc : classify (env k) with
    | some df => simp [Bind.bind, Except.bind, Except.pure, pure]
    | none => simp [Bind.bind, Except.bind, ih (k + 1)]

theorem primary_attempts_none_idx (env : Env) (sym period interval : Str)
    (pause : Nat) :
    ∀ n k, (primary_attempts env sym period interval pause n k).1 = none →
      (primary_attempts env sym period interval pause n k).2.1 = k + n := by
  intro n
  induction n with
  | zero => intro k _; simp [primary_attempts]
  | succ m ih =>
    intro k h
    simp only [primary_attempts] at h ⊢
    cases hc : classify (env k) with
    | some df => simp [hc] at h
    | none =>
      by_cases hm : m = 0
      · subst hm; simp [hc]
      · simp only [hc, hm, if_false] at h ⊢
        have := ih (k + 1) h
        omega

theorem fallback_attempts_none_idx (env : Env) (sym : Str) :
    ∀ cfgs k, (fallback_attempts env sym cfgs k).1 = none →
      (fallback_attempts env sym cfgs k).2.1 = k + cfgs.length := by
  intro cfgs
  induction cfgs with
  | nil => intro k _; simp [fallback_attempts]
  | cons c rest ih =>
    intro k h
    obtain ⟨period, interval⟩ := c
    simp only [fallback_attempts] at h ⊢
    cases hc : classify (env k) with
    | some df => simp [hc] at h
    | none =>
      simp only [hc] at h ⊢
      have := ih (k + 1) h
      simp [this]
      omega

/-- C5: no adapter-level exception ever escapes `fetch_yahoo_or_nse`.
`fetch_yahoo_or_nse_exc` is the same control flow written in the
exception monad, where every provider call may raise and each of the
function's bare `except Exception` handlers is an explicit
`Except.tryCatch`; an uncaught exception would surface as `Except.error`.
For every provider behaviour the run is `Except.ok` of the value the pure
model computes — the function always returns normally, with a frame or
`None`. -/
theorem fetch_never_propagates_exceptions (env : Env)
    (symbol period interval : Str) (max_retries pause : Nat) :
    fetch_yahoo_or_nse_exc env max_retries
      = Except.ok
          (fetch_yahoo_or_nse env symbol period interval max_retries pause).1 := by
  simp only [fetch_yahoo_or_nse_exc, fetch_yahoo_or_nse]
  rw [primary_attempts_exc_eq env (normalize_symbol symbol) period interval pause]
  cases hp : (primary_attempts env (normalize_symbol symbol) period interval
      pause max_retries 0).1 with
  | some df => simp [Bind.bind, Except.bind, Except.pure, pure]
  | none =>
    have hidx : (primary_attempts env (normalize_symbol symbol) period
        interval pause max_retries 0).2.1 = max_retries := by
      simpa using primary_attempts_none_idx env (normalize_symbol symbol)
        period interval pause max_retries 0 hp
    simp only [Bind.bind, Except.bind, hidx]
    rw [fallback_attempts_exc_eq env (normalize_symbol symbol)]
    cases hf : (fallback_attempts env (normalize_symbol symbol)
        fallback_configs max_retries).1 with
    | some df => simp [Bind.bind, Except.bind, Except.pure, pure]
    | none =>
      have hidx2 : (fallback_attempts env (normalize_symbol symbol)
          fallback_configs max_retries).2.1
            = max_retries + fallback_configs.length :=
        fallback_attempts_none_idx env (normalize_symbol symbol)
          fallback_configs max_retries hf
      simp only [Bind.bind, Except.bind, hidx2]
      rw [try_provider_call_eq]
      simp only [download_attempt, Bind.bind, Except.bind]
      cases hd : classify (env (max_retries + fallback_configs.length)) with
      | some df => rfl
      | none => rfl

theorem all_fail_trace_length (env : Env) (sym period interval : Str)
    (pause : Nat) :
    ∀ n k, (all_fail_trace env sym period interval pause n k).length
      ≤ 2 * n := by
  intro n
  induction n with
  | zero => intro k; simp [all_fail_trace]
  | succ m ih =>
    intro k
    cases m with
    | zero => simp [all_fail_trace]
    | succ m' =>
      have := ih (k + 1)
      simp only [all_fail_trace, List.length_cons] at this ⊢
      omega

theorem fallback_attempts_all_fail (env : Env) (sym : Str)
    (h : ∀ j, failed (env j) = true) :
    ∀ cfgs k, (fallback_attempts env sym cfgs k).1 = none
      ∧ (fallback_attempts env sym cfgs k).2.1 = k + cfgs.length
      ∧ (fallback_attempts env sym cfgs k).2.2.length = 2 * cfgs.length
      ∧ countFallbackCalls ((fallback_attempts env sym cfgs k).2.2)
          = cfgs.length := by
  intro cfgs
  induction cfgs with
  | nil =>
    intro k
    refine ⟨rfl, by simp [fallback_attempts], by simp [fallback_attempts], ?_⟩
    simp [fallback_attempts, countFallbackCalls]
  | cons c rest ih =>
    intro k
    obtain ⟨period, interval⟩ := c
    have hc : classify (env k) = none := classify_eq_none_of_failed _ (h k)
    obtain ⟨ih1, ih2, ih3, ih4⟩ := ih (k + 1)
    simp only [fallback_attempts, hc]
    refine ⟨ih1, ?_, ?_, ?_⟩
    · simp [ih2]; omega
    · simp only [List.length_cons, ih3, List.length]
      omega
    · simp only [countFallbackCalls, List.countP_cons] at ih4 ⊢
      simp [isFallbackCall, ih4]

theorem download_attempt_all_fail (env : Env) (sym : Str) (k : Nat)
    (h : ∀ j, failed (env j) = true) :
    (download_attempt env sym k).1 = none
      ∧ (download_attempt env sym k).2.length = 1
      ∧ countFallbackCalls ((download_attempt env sym k).2) = 1 := by
  have hc : classify (env k) = none := classify_eq_none_of_failed _ (h k)
  refine ⟨by simp [download_attempt, hc], rfl, ?_⟩
  simp [download_attempt, countFallbackCalls, isFallbackCall]

/-- C6: when every provider call fails (raises or returns an empty
frame), `fetch_yahoo_or_nse` terminates after a bounded trace — at most
`max_retries` primary calls and `max_retries - 1` sleeps, then the three
fallback calls with their three sleeps and the one download call, i.e.
at most `2 * max_retries + 7` events in total — and returns the absence
signal `None`. -/
theorem fetch_all_fail_terminates_with_none (env : Env)
    (symbol period interval : Str) (max_retries pause : Nat)
    (h : ∀ j, failed (env j) = true) :
    (fetch_yahoo_or_nse env symbol period interval max_retries pause).1 = none
      ∧ (fetch_yahoo_or_nse env symbol period interval max_retries pause).2.length
          ≤ 2 * max_retries + 7 := by
  have hp := primary_attempts_all_fail env (normalize_symbol symbol) period
    interval pause max_retries 0 (fun j _ => h _)
  have hlen := all_fail_trace_length env (normalize_symbol symbol) period
    interval pause max_retries 0
  obtain ⟨hf1, hf2, hf3, _⟩ := fallback_attempts_all_fail env
    (normalize_symbol symbol) h fallback_configs (0 + max_retries)
  obtain ⟨hd1, hd2, _⟩ := download_attempt_all_fail env
    (normalize_symbol symbol) (0 + max_retries + fallback_configs.length) h
  simp only [fetch_yahoo_or_nse, hp, hf1, hf2, hd1]
  constructor
  · trivial
  · simp only [List.length_append, hd2, hf3]
    simp only [fallback_configs, List.length]
    omega

/-- Oracle on which every provider call raises. -/
def envAlwaysRaises : Env := fun _ => Except.error ("ConnectionError")

theorem fetch_all_fail_terminates_with_none_witness :
    (∀ j, failed (envAlwaysRaises j) = true)
      ∧ ((fetch_yahoo_or_nse envAlwaysRaises ("RELIANCE".data) ("1mo".data)
            ("1d".data) 5 3).1 = none
        ∧ (fetch_yahoo_or_nse envAlwaysRaises ("RELIANCE".data) ("1mo".data)
            ("1d".data) 5 3).2.length ≤ 2 * 5 + 7) :=
  ⟨fun _ => rfl,
   fetch_all_fail_terminates_with_none envAlwaysRaises ("RELIANCE".data)
     ("1mo".data) ("1d".data) 5 3 (fun _ => rfl)⟩

theorem strEndsWith_append_self (s t : Str) :
    strEndsWith (s ++ t) t = true := by
  simp [strEndsWith, List.isSuffixOf]

theorem primary_attempts_events_symbol (env : Env)
    (sym period interval : Str) (pause : Nat) :
    ∀ n k, ((primary_attempts env sym period interval pause n k).2.2).all
      (eventUsesSymbol sym) = true := by
  intro n
  induction n with
  | zero => intro k; simp [primary_attempts]
  | succ m ih =>
    intro k
    simp only [primary_attempts]
    cases hc : classify (env k) with
    | some df => simp [eventUsesSymbol, callSymbol]
    | none =>
      by_cases hm : m = 0
      · simp [hm, eventUsesSymbol, callSymbol]
      · simp only [hm, if_false]
        simp [eventUsesSymbol, callSymbol, ih (k + 1)]

theorem fallback_attempts_events_symbol (env : Env) (sym : Str) :
    ∀ cfgs k, ((fallback_attempts env sym cfgs k).2.2).all
      (eventUsesSymbol sym) = true := by
  intro cfgs
  induction cfgs with
  | nil => intro k; simp [fallback_attempts]
  | cons c rest ih =>
    intro k
    obtain ⟨period, interval⟩ := c
    simp only [fallback_attempts]
    cases hc : classify (env k) with
    | some df => simp [eventUsesSymbol, callSymbol]
    | none => simp [eventUsesSymbol, callSymbol, ih (k + 1)]

theorem download_attempt_events_symbol (env : Env) (sym : Str) (k : Nat) :
    ((download_attempt env sym k).2).all (eventUsesSymbol sym) = true := by
  simp [download_attempt, eventUsesSymbol, callSymbol]

/-- C7: symbol normalization is idempotent — normalizing an
already-normalized symbol is a no-op (`"RELIANCE.NS"` stays
`"RELIANCE.NS"`, a bare `"RELIANCE"` gains the `.NS` suffix, the index
symbol `"^NSEI"` is left unsuffixed) — and it is applied once, before the
first attempt: every provider call of every run, in every strategy, uses
the normalized symbol `normalize_symbol symbol`. -/
theorem normalize_symbol_idempotent_and_applied_once :
    (∀ s, normalize_symbol (normalize_symbol s) = normalize_symbol s)
      ∧ normalize_symbol ("RELIANCE.NS".data) = ("RELIANCE.NS".data)
      ∧ normalize_symbol ("RELIANCE".data) = ("RELIANCE.NS".data)
      ∧ normalize_symbol ("^NSEI".data) = ("^NSEI".data)
      ∧ ∀ env symbol period interval max_retries pause,
          ((fetch_yahoo_or_nse env symbol period interval max_retries
              pause).2).all
            (eventUsesSymbol (normalize_symbol symbol)) = true := by
  refine ⟨?_, by decide, by decide, by decide, ?_⟩
  · intro s
    by_cases h : (strEndsWith s nsSuffix || strStartsWith s caretStr) = true
    · simp [normalize_symbol, h]
    · simp only [normalize_symbol, h, if_false]
      simp [normalize_symbol, strEndsWith_append_self]
  · intro env symbol period interval max_retries pause
    have hprim := primary_attempts_events_symbol env
      (normalize_symbol symbol) period interval pause max_retries 0
    simp only [fetch_yahoo_or_nse]
    split
    · next df hp => exact hprim
    · next hp =>
      have hfb := fallback_attempts_events_symbol env
        (normalize_symbol symbol) fallback_configs
        (primary_attempts env (normalize_symbol symbol) period interval
          pause max_retries 0).2.1
      split
      · next df hf => simp [List.all_append, hprim, hfb]
      · next hf =>
        have hdl := download_attempt_events_symbol env
          (normalize_symbol symbol)
          (fallback_attempts env (normalize_symbol symbol) fallback_configs
            (primary_attempts env (normalize_symbol symbol) period interval
              pause max_retries 0).2.1).2.1
        split
        · next df hd => simp [List.all_append, hprim, hfb, hdl]
        · next hd => simp [List.all_append, hprim, hfb, hdl]

/-- C8 counterexample: `fetch_yahoo_or_nse` has no capability flag and no
credential parameter at all; with the primary source returning an empty
frame on every attempt, the run does make fallback calls (four of them)
before returning the absence signal — it does not return absence
immediately after the primary retries. -/
theorem no_secondary_call_counterexample :
    (fetch_yahoo_or_nse envAlwaysEmpty ("INFY".data) ("1mo".data)
        ("1d".data) 1 3).1 = none
      ∧ countFallbackCalls
          (fetch_yahoo_or_nse envAlwaysEmpty ("INFY".data) ("1mo".data)
            ("1d".data) 1 3).2 ≠ 0 := by
  refine ⟨by decide, by decide⟩

/-- C8 (amended): `fetch_yahoo_or_nse` has no capability gate: whenever
every provider call fails (empty or raises), the exhausted primary
retries are always followed by the fallback strategies — exactly four
fallback calls (three configs and the download) — before the absence
signal is returned. -/
theorem fallback_always_attempted_no_capability_gate (env : Env)
    (symbol period interval : Str) (max_retries pause : Nat)
    (h : ∀ j, failed (env j) = true) :
    (fetch_yahoo_or_nse env symbol period interval max_retries pause).1 = none
      ∧ countFallbackCalls
          (fetch_yahoo_or_nse env symbol period interval max_retries pause).2
        = 4 := by
  have hp := primary_attempts_all_fail env (normalize_symbol symbol) period
    interval pause max_retries 0 (fun j _ => h _)
  have hcp := all_fail_trace_countFallback env (normalize_symbol symbol)
    period interval pause max_retries 0
  obtain ⟨hf1, hf2, _, hf4⟩ := fallback_attempts_all_fail env
    (normalize_symbol symbol) h fallback_configs (0 + max_retries)
  obtain ⟨hd1, _, hd3⟩ := download_attempt_all_fail env
    (normalize_symbol symbol) (0 + max_retries + fallback_configs.length) h
  simp only [fetch_yahoo_or_nse, hp, hf1, hf2, hd1]
  refine ⟨trivial, ?_⟩
  simp only [countFallbackCalls, List.countP_append] at hcp hf4 hd3 ⊢
  rw [hcp, hf4, hd3]
  simp [fallback_configs]

theorem fallback_always_attempted_no_capability_gate_witness :
    (∀ j, failed (envAlwaysEmpty j) = true)
      ∧ ((fetch_yahoo_or_nse envAlwaysEmpty ("SBIN".data) ("1mo".data)
            ("1d".data) 5 3).1 = none
        ∧ countFallbackCalls
            (fetch_yahoo_or_nse envAlwaysEmpty ("SBIN".data) ("1mo".data)
              ("1d".data) 5 3).2 = 4) :=
  ⟨fun _ => rfl,
   fallback_always_attempted_no_capability_gate envAlwaysEmpty ("SBIN".data)
     ("1mo".data) ("1d".data) 5 3 (fun _ => rfl)⟩

/-- Oracle: the first provider call returns an empty frame, every later
call returns the one-bar frame `[barC]`. -/
def envEmptyOnce : Env := fun j =>
  if j = 0 then Except.ok [] else Except.ok [barC]

/-- Oracle: every provider call succeeds at once with `[barC]`. -/
def envOkRightAway : Env := fun _ => Except.ok [barC]

/-- C9: once the primary retry loop is exhausted, the fallback attempts
discard the caller's requested period and interval and use the hardcoded
configurations: with requested period `"1y"` and interval `"1h"` and one
failed primary attempt, the returned series comes from the fallback call
with period `"5d"` and interval `"1d"` — both different from what was
requested — and the result is indistinguishable from a primary success
with the same frame (no indication of the substitution in the result). -/
theorem fallback_discards_requested_period_interval :
    fetch_yahoo_or_nse envEmptyOnce ("RELIANCE".data) ("1y".data)
        ("1h".data) 1 3
      = (some [barC],
         [Event.call
            (FetchCall.primaryHistory ("RELIANCE.NS".data) ("1y".data)
              ("1h".data))
            (Except.ok []),
          Event.call
            (FetchCall.fallbackHistory ("RELIANCE.NS".data) ("5d".data)
              ("1d".data))
            (Except.ok [barC])])
      ∧ ("5d".data ≠ ("1y".data) ∧ ("1d".data) ≠ ("1h".data))
      ∧ (fetch_yahoo_or_nse envEmptyOnce ("RELIANCE".data) ("1y".data)
            ("1h".data) 1 3).1
          = (fetch_yahoo_or_nse envOkRightAway ("RELIANCE".data) ("1y".data)
              ("1h".data) 1 3).1
      ∧ fallback_configs
          = [("5d".data, "1d".data), ("1mo".data, "1d".data),
             ("3mo".data, "1wk".data)] := by
  refine ⟨by decide, ⟨by decide, by decide⟩, by decide, rfl⟩

/-- C10: the normalization step appends `".NS"` to every symbol that does
not already end with `".NS"` and does not start with `"^"`, with no
validation of the remainder: the empty string becomes `".NS"`, and a
symbol already carrying a different exchange suffix, `"TCS.BO"`, becomes
`"TCS.BO.NS"`. -/
theorem normalize_appends_ns_unconditionally (s : Str)
    (h1 : strEndsWith s nsSuffix = false)
    (h2 : strStartsWith s caretStr = false) :
    normalize_symbol s = s ++ nsSuffix
      ∧ normalize_symbol ([] : Str) = nsSuffix
      ∧ normalize_symbol ("TCS.BO".data) = ("TCS.BO.NS".data) := by
  refine ⟨?_, by decide, by decide⟩
  simp [normalize_symbol, h1, h2]

theorem normalize_appends_ns_unconditionally_witness :
    strEndsWith ("TCS.BO".data) nsSuffix = false
      ∧ strStartsWith ("TCS.BO".data) caretStr = false
      ∧ (normalize_symbol ("TCS.BO".data) = ("TCS.BO".data) ++ nsSuffix
        ∧ normalize_symbol ([] : Str) = nsSuffix
        ∧ normalize_symbol ("TCS.BO".data) = ("TCS.BO.NS".data)) :=
  ⟨by decide, by decide,
   normalize_appends_ns_unconditionally ("TCS.BO".data) (by decide)
     (by decide)⟩
